import Mathlib

/-
Verification development for the OTTO two-stage recommender pipeline
(src/app.py).  The core of the program is embedded shallowly:

* Python dict / collections.Counter objects are association lists in
  insertion order (List (key, value)); dict.get with a default becomes a
  total lookup returning the default.
* Counter.most_common(n) is a stable sort by count descending followed by
  take n (heapq.nlargest is documented as equivalent to a stable
  sorted(..., reverse=True)[:n]); we use Mathlib's stable insertionSort.
* sorted(zip(scores, candidates), reverse=True) is the stable sort by the
  reverse lexicographic order on (score, aid) pairs.
* Python set(...) iteration order is unspecified; we iterate deduplicated
  lists in first-occurrence order.  Every property proved below is
  independent of that iteration order (the accumulated scores are sums).
* Model scores are embedded as integers (only their linear order matters
  to the ranking logic); a fallible model call is a function returning
  Option (none = the predict call raised).
* The space-separated string serialization of each result list and the
  diagnostic feature DataFrame returned alongside are presentation
  concerns and are not modelled; the pipeline result is the triple of
  recommendation lists, with none standing for the empty dict the code
  returns when prediction fails.
-/

namespace Otto

/-- Item identifier (the aid field of an event). -/
abbrev Aid := Nat

/-- A Python Counter / dict with integer values, as an association list in
insertion order. -/
abbrev AList := List (Aid × Int)

/-- The co_visitation_map: dict from aid to a Counter of co-visited aids. -/
abbrev CoVisMap := List (Aid × AList)

/-- An interaction event; only the aid field of the source event dict is
used by the pipeline. -/
structure Event where
  aid : Aid
deriving DecidableEq, Repr

/-- N_ITEMS_FROM_HISTORY constant from app.py. -/
def N_ITEMS_FROM_HISTORY : Nat := 5

/-- N_CO_VISITS_PER_ITEM constant from app.py. -/
def N_CO_VISITS_PER_ITEM : Nat := 40

/-- N_CANDIDATES_PER_SESSION constant from app.py. -/
def N_CANDIDATES_PER_SESSION : Nat := 200

/-- counter.get(k, 0): total lookup in an association list, 0 if absent. -/
def counterGet (c : AList) (k : Aid) : Int :=
  match c.find? (fun p => p.1 == k) with
  | some p => p.2
  | none => 0

/-- co_visitation_map.get(aid, Counter()): lookup returning the empty
counter when the key is absent. -/
def covisGet (m : CoVisMap) (k : Aid) : AList :=
  match m.find? (fun p => p.1 == k) with
  | some p => p.2
  | none => []

/-- Nonstrict comparison by count, descending: the sort order used by
Counter.most_common. -/
abbrev countGe (p q : Aid × Int) : Prop := q.2 ≤ p.2

/-- counter.most_common(n): entries stably sorted by count descending,
first n taken. -/
def mostCommon (n : Nat) (c : AList) : AList :=
  (List.insertionSort countGe c).take n

/-- counter[k] += v on a Python Counter: updates the value in place when
the key exists (position preserved), otherwise appends the key at the
end (dict insertion order). -/
def bumpCounter (c : AList) (k : Aid) (v : Int) : AList :=
  if c.any (fun p => p.1 == k) then
    c.map (fun p => if p.1 == k then (p.1, p.2 + v) else p)
  else
    c ++ [(k, v)]

/-- Deduplication keeping the first occurrence, with an accumulator of
already seen elements (the semantics of dict.fromkeys). -/
def dedupFirstAux (seen : List Aid) : List Aid → List Aid
  | [] => []
  | a :: rest =>
    if a ∈ seen then dedupFirstAux seen rest
    else a :: dedupFirstAux (a :: seen) rest

/-- list(dict.fromkeys(l)): deduplicate preserving first occurrence. -/
def dedupFirst (l : List Aid) : List Aid :=
  dedupFirstAux [] l

/-- history_aids = [event['aid'] for event in events]. -/
def historyAids (events : List Event) : List Aid :=
  events.map (fun e => e.aid)

/-- Body of the inner loop of Stage 1: skip candidates already in the
session history, otherwise accumulate the co-visitation weight. -/
def addCoVisit (histAids : List Aid) (pool : AList) (p : Aid × Int) : AList :=
  if histAids.contains p.1 then pool else bumpCounter pool p.1 p.2

/-- One iteration of the outer loop of Stage 1: fold the top
N_CO_VISITS_PER_ITEM co-visited items of one seed into the pool. -/
def accumulateSeed (covis : CoVisMap) (histAids : List Aid) (pool : AList) (seed : Aid) : AList :=
  (mostCommon N_CO_VISITS_PER_ITEM (covisGet covis seed)).foldl (addCoVisit histAids) pool

/-- session_candidate_pool after Stage 1 of run_model_pipeline: seeds are
the deduplicated last N_ITEMS_FROM_HISTORY history items; for each seed
the top co-visited items not in the history are accumulated. -/
def sessionCandidatePool (covis : CoVisMap) (events : List Event) : AList :=
  let histAids := historyAids events
  let seeds := dedupFirst (histAids.drop (histAids.length - N_ITEMS_FROM_HISTORY))
  seeds.foldl (accumulateSeed covis histAids) []

/-- dynamic_candidates: aids of the pool sorted by accumulated score
descending, truncated to N_CANDIDATES_PER_SESSION. -/
def dynamicCandidates (covis : CoVisMap) (events : List Event) : List Aid :=
  (mostCommon N_CANDIDATES_PER_SESSION (sessionCandidatePool covis events)).map (fun p => p.1)

/-- final_candidate_list: dynamic candidates concatenated with the
fallback list, deduplicated preserving first occurrence, truncated to
N_CANDIDATES_PER_SESSION. -/
def finalCandidateList (covis : CoVisMap) (fallback : List Aid) (events : List Event) : List Aid :=
  (dedupFirst (dynamicCandidates covis events ++ fallback)).take N_CANDIDATES_PER_SESSION

/-- Feature 1: co_visit_score, the loop over history_aids_set summing the
co-visitation weight from each distinct history item to the candidate
(0 when absent). -/
def coVisitScore (covis : CoVisMap) (histSet : List Aid) (cand : Aid) : Int :=
  histSet.foldl (fun s h => s + counterGet (covisGet covis h) cand) 0

/-- The four-feature row built for one candidate:
[co_visit_score, global_pop, session_len, history_clicks]. -/
def featureRow (covis : CoVisMap) (pop : AList) (histAids : List Aid)
    (sessionLen : Nat) (cand : Aid) : List Int :=
  [coVisitScore covis (dedupFirst histAids) cand,
   counterGet pop cand,
   (sessionLen : Int),
   (histAids.count cand : Int)]

/-- X_test_session_list: one feature row per final candidate, in pool
order. -/
def featureMatrix (covis : CoVisMap) (pop : AList) (fallback : List Aid)
    (events : List Event) : List (List Int) :=
  (finalCandidateList covis fallback events).map
    (featureRow covis pop (historyAids events) events.length)

/-- Nonstrict reverse lexicographic order on (score, aid) pairs: the order
produced by sorted(zip(scores, candidates), reverse=True). -/
abbrev pairDescLe (p q : Int × Aid) : Prop :=
  q.1 < p.1 ∨ (p.1 = q.1 ∧ q.2 ≤ p.2)

/-- sorted(zip(scores, candidates), reverse=True). -/
def rankedPairs (scores : List Int) (candidates : List Aid) : List (Int × Aid) :=
  List.insertionSort pairDescLe (scores.zip candidates)

/-- top_20 before the fallback extension: the ranked candidates (score
paired with aid, sorted in reverse) truncated to 20. -/
def rankedTop (scores : List Int) (candidates : List Aid) : List Aid :=
  ((rankedPairs scores candidates).map (fun p => p.2)).take 20

/-- get_top_20_recs from app.py: rank candidates by score descending, take
the top 20, and if fewer than 20 extend with fallback items not among
them (membership tested against the pre-extension list, exactly as the
evaluated list comprehension does) and truncate to 20. -/
def get_top_20_recs (scores : List Int) (candidates fallback : List Aid) : List Aid :=
  if (rankedTop scores candidates).length < 20 then
    (rankedTop scores candidates
      ++ fallback.filter (fun a => !((rankedTop scores candidates).contains a))).take 20
  else
    rankedTop scores candidates

/-- The three recommendation lists of a successful pipeline run (the dict
keyed by clicks, carts, orders). -/
structure RecResults where
  clicks : List Aid
  carts : List Aid
  orders : List Aid
deriving DecidableEq, Repr

/-- run_model_pipeline from app.py.  Empty session and empty candidate
pool both return the whole fallback list for all three event types; on
the scoring path the three models are called on the feature matrix and a
failure of any call is caught, producing none (the code returns the
empty dict, carrying no list for any event type).  The three model calls
are pure here, so calling all three before matching is equivalent to the
sequential calls under the single try of the source. -/
def run_model_pipeline (covis : CoVisMap) (pop : AList) (fallback : List Aid)
    (mClicks mCarts mOrders : List (List Int) → Option (List Int))
    (events : List Event) : Option RecResults :=
  if events.isEmpty then
    some ⟨fallback, fallback, fallback⟩
  else if (finalCandidateList covis fallback events).isEmpty then
    some ⟨fallback, fallback, fallback⟩
  else
    match mClicks (featureMatrix covis pop fallback events),
          mCarts (featureMatrix covis pop fallback events),
          mOrders (featureMatrix covis pop fallback events) with
    | some sClicks, some sCarts, some sOrders =>
      some ⟨get_top_20_recs sClicks (finalCandidateList covis fallback events) fallback,
            get_top_20_recs sCarts (finalCandidateList covis fallback events) fallback,
            get_top_20_recs sOrders (finalCandidateList covis fallback events) fallback⟩
    | _, _, _ => none

/-- The co-occurrence index of the concrete scenario of the spec. -/
def covisEx : CoVisMap := [(10, [(20, 5), (30, 3)]), (20, [(10, 2), (40, 1)])]

/-- The popularity table of the concrete scenario of the spec. -/
def popEx : AList := [(10, 100), (20, 50), (30, 10), (40, 5)]

/-- The session events of the concrete scenario of the spec. -/
def eventsEx : List Event := [⟨10⟩, ⟨20⟩, ⟨10⟩]

/-- A fallback list with 21 distinct entries (the spec allows any length
at least 20). -/
def fb21 : List Aid := List.range 21

/-- A model stub that always succeeds, returning an empty score list. -/
def okModel : List (List Int) → Option (List Int) := fun _ => some []

instance : IsTotal (Aid × Int) countGe :=
  ⟨fun p q => le_total q.2 p.2⟩

instance : IsTrans (Aid × Int) countGe :=
  ⟨fun _ _ _ hab hbc => le_trans hbc hab⟩

instance : IsTotal (Int × Aid) pairDescLe := by
  constructor
  intro p q
  rcases lt_trichotomy p.1 q.1 with h | h | h
  · exact Or.inr (Or.inl h)
  · rcases le_total p.2 q.2 with h2 | h2
    · exact Or.inr (Or.inr ⟨h.symm, h2⟩)
    · exact Or.inl (Or.inr ⟨h, h2⟩)
  · exact Or.inl (Or.inl h)

instance : IsTrans (Int × Aid) pairDescLe := by
  constructor
  intro a b c hab hbc
  rcases hab with h1 | ⟨h1, h1'⟩ <;> rcases hbc with h2 | ⟨h2, h2'⟩
  · exact Or.inl (lt_trans h2 h1)
  · exact Or.inl (h2 ▸ h1)
  · exact Or.inl (h1 ▸ h2)
  · exact Or.inr ⟨h1.trans h2, le_trans h2' h1'⟩

/-- Folding addition of a mapped value equals adding the sum. -/
lemma foldl_add_eq_sum (f : Aid → Int) (l : List Aid) (init : Int) :
    l.foldl (fun s h => s + f h) init = init + (l.map f).sum := by
  induction l generalizing init with
  | nil => simp
  | cons a l ih => simp [ih, add_assoc]

/-- Membership in dedupFirstAux: in the tail and not among the already
seen elements. -/
lemma mem_dedupFirstAux (a : Aid) (l seen : List Aid) :
    a ∈ dedupFirstAux seen l ↔ a ∈ l ∧ a ∉ seen := by
  induction l generalizing seen with
  | nil => simp [dedupFirstAux]
  | cons b l ih =>
    by_cases hb : b ∈ seen
    · simp only [dedupFirstAux, if_pos hb, ih, List.mem_cons]
      constructor
      · exact fun ⟨h1, h2⟩ => ⟨Or.inr h1, h2⟩
      · rintro ⟨h1 | h1, h2⟩
        · exact absurd (h1 ▸ hb) h2
        · exact ⟨h1, h2⟩
    · simp only [dedupFirstAux, if_neg hb, List.mem_cons, ih]
      constructor
      · rintro (rfl | ⟨h1, h2⟩)
        · exact ⟨Or.inl rfl, hb⟩
        · exact ⟨Or.inr h1, fun hs => h2 (Or.inr hs)⟩
      · rintro ⟨rfl | h1, h2⟩
        · exact Or.inl rfl
        · by_cases hab : a = b
          · exact Or.inl hab
          · exact Or.inr ⟨h1, fun hs => by
              rcases hs with h | h
              exacts [hab h, h2 h]⟩

/-- dedupFirstAux produces a duplicate-free list. -/
lemma nodup_dedupFirstAux (l seen : List Aid) :
    (dedupFirstAux seen l).Nodup := by
  induction l generalizing seen with
  | nil => simp [dedupFirstAux]
  | cons b l ih =>
    by_cases hb : b ∈ seen
    · simpa [dedupFirstAux, if_pos hb] using ih seen
    · simp only [dedupFirstAux, if_neg hb, List.nodup_cons]
      refine ⟨fun hmem => ?_, ih (b :: seen)⟩
      exact ((mem_dedupFirstAux b l (b :: seen)).mp hmem).2 (List.mem_cons_self b _)

/-- dedupFirst of a list is empty exactly when the list is. -/
lemma dedupFirst_eq_nil_iff (l : List Aid) : dedupFirst l = [] ↔ l = [] := by
  cases l with
  | nil => simp [dedupFirst, dedupFirstAux]
  | cons a l => simp [dedupFirst, dedupFirstAux]

/-- bumpCounter preserves any predicate holding of the existing keys and
of the bumped key. -/
lemma bumpCounter_keys {P : Aid → Prop} {c : AList} {k : Aid} {v : Int}
    (hc : ∀ p ∈ c, P p.1) (hk : P k) :
    ∀ p ∈ bumpCounter c k v, P p.1 := by
  intro p hp
  unfold bumpCounter at hp
  split at hp
  · obtain ⟨q, hq, hpq⟩ := List.mem_map.mp hp
    have h1 : p.1 = q.1 := by
      split at hpq <;> simp [← hpq]
    exact h1 ▸ hc q hq
  · rcases List.mem_append.mp hp with h | h
    · exact hc p h
    · have h1 : p = (k, v) := by simpa using h
      exact h1 ▸ hk

/-- Keys accumulated by the Stage 1 inner loop over one seed's co-visited
items are never session-history items. -/
lemma addCoVisit_foldl_keys (hist : List Aid) (l : List (Aid × Int)) :
    ∀ pool : AList, (∀ p ∈ pool, p.1 ∉ hist) →
      ∀ p ∈ l.foldl (addCoVisit hist) pool, p.1 ∉ hist := by
  induction l with
  | nil => intro pool hpool; simpa using hpool
  | cons q l ih =>
    intro pool hpool
    rw [List.foldl_cons]
    refine ih _ ?_
    unfold addCoVisit
    split
    · exact hpool
    · next h =>
      refine bumpCounter_keys (P := fun a => a ∉ hist) hpool ?_
      intro hq
      exact h (by simpa [List.contains] using hq)

/-- Keys of the full Stage 1 accumulation are never session-history
items. -/
lemma seeds_foldl_keys (covis : CoVisMap) (hist : List Aid) (seeds : List Aid) :
    ∀ pool : AList, (∀ p ∈ pool, p.1 ∉ hist) →
      ∀ p ∈ seeds.foldl (accumulateSeed covis hist) pool, p.1 ∉ hist := by
  induction seeds with
  | nil => intro pool hpool; simpa using hpool
  | cons s seeds ih =>
    intro pool hpool
    rw [List.foldl_cons]
    exact ih _ (addCoVisit_foldl_keys hist _ pool hpool)

/-- No key of the session candidate pool lies in the session history. -/
lemma sessionCandidatePool_keys (covis : CoVisMap) (events : List Event) :
    ∀ p ∈ sessionCandidatePool covis events, p.1 ∉ historyAids events := by
  exact seeds_foldl_keys covis (historyAids events) _ [] (by simp)

/-- As long as the fallback list is non-empty, so is the final candidate
list. -/
lemma finalCandidateList_ne_nil (covis : CoVisMap) (fallback : List Aid)
    (events : List Event) (hfb : fallback ≠ []) :
    finalCandidateList covis fallback events ≠ [] := by
  unfold finalCandidateList
  intro h
  rcases List.take_eq_nil_iff.mp h with h | h
  · exact absurd h (by simp [N_CANDIDATES_PER_SESSION])
  · exact hfb (List.append_eq_nil.mp ((dedupFirst_eq_nil_iff _).mp h)).2

/-- Every list produced by get_top_20_recs has at most 20 entries. -/
lemma length_get_top_20_le (scores : List Int) (candidates fallback : List Aid) :
    (get_top_20_recs scores candidates fallback).length ≤ 20 := by
  unfold get_top_20_recs
  split
  · exact List.length_take_le _ _
  · exact List.length_take_le _ _

/-- With a duplicate-free fallback of at least 20 entries, get_top_20_recs
returns exactly 20 entries. -/
lemma length_get_top_20_eq (scores : List Int) (candidates fallback : List Aid)
    (hnd : fallback.Nodup) (h20 : 20 ≤ fallback.length) :
    (get_top_20_recs scores candidates fallback).length = 20 := by
  unfold get_top_20_recs
  split
  · next h =>
    have hpos : (fallback.filter (fun a => (rankedTop scores candidates).contains a)).length
        ≤ (rankedTop scores candidates).length := by
      refine List.Subperm.length_le (List.subperm_of_subset (hnd.filter _) ?_)
      intro a haf
      have := (List.mem_filter.mp haf).2
      simpa [List.contains] using this
    have hsplit := List.length_eq_countP_add_countP
      (p := fun a => (rankedTop scores candidates).contains a) (l := fallback)
    rw [List.countP_eq_length_filter, List.countP_eq_length_filter] at hsplit
    rw [List.length_take, List.length_append]
    have hneg : (fallback.filter (fun a => !((rankedTop scores candidates).contains a))).length
        = (fallback.filter (fun a => ¬ (rankedTop scores candidates).contains a)).length := by
      simp
    omega
  · next h =>
    have := List.length_take_le 20 ((rankedPairs scores candidates).map (fun p => p.2))
    unfold rankedTop at h ⊢
    omega

/-- Claim C4: in the concrete scenario, history items 10 and 20 are
excluded from the dynamic candidates, item 30 accumulates co-visitation
score 3 and item 40 accumulates score 1, and the feature row built for
candidate 30 is [3, 10, 3, 0]; in general the co-visitation feature is
the sum, over the distinct historical item ids, of the co-visitation
weight from that item to the candidate, 0 standing for absent entries. -/
theorem scenario_features_and_covisit_sum :
    (10 : Aid) ∉ dynamicCandidates covisEx eventsEx
    ∧ (20 : Aid) ∉ dynamicCandidates covisEx eventsEx
    ∧ counterGet (sessionCandidatePool covisEx eventsEx) 30 = 3
    ∧ counterGet (sessionCandidatePool covisEx eventsEx) 40 = 1
    ∧ featureRow covisEx popEx (historyAids eventsEx) 3 30 = [3, 10, 3, 0]
    ∧ ∀ (covis : CoVisMap) (hist : List Aid) (cand : Aid),
        coVisitScore covis (dedupFirst hist) cand
          = ((dedupFirst hist).map (fun h => counterGet (covisGet covis h) cand)).sum := by
  refine ⟨by decide, by decide, by decide, by decide, by decide, ?_⟩
  intro covis hist cand
  unfold coVisitScore
  rw [foldl_add_eq_sum]
  simp

/-- Claim C5: every dynamic (co-visitation derived) candidate is absent
from the session's event history. -/
theorem dynamicCandidates_not_in_history (covis : CoVisMap) (events : List Event)
    (a : Aid) (ha : a ∈ dynamicCandidates covis events) :
    a ∉ historyAids events := by
  unfold dynamicCandidates mostCommon at ha
  obtain ⟨p, hp, hpa⟩ := List.mem_map.mp ha
  have hp2 : p ∈ sessionCandidatePool covis events :=
    (List.mem_insertionSort countGe).mp (List.mem_of_mem_take hp)
  exact hpa ▸ sessionCandidatePool_keys covis events p hp2

/-- Witness for C5: in the concrete scenario, 30 is a dynamic candidate
and is indeed not a history item. -/
theorem dynamicCandidates_not_in_history_witness :
    (30 : Aid) ∉ historyAids eventsEx :=
  dynamicCandidates_not_in_history covisEx eventsEx 30 (by decide)

/-- Claim C6: the final candidate pool is duplicate-free and bounded by
N_CANDIDATES_PER_SESSION. -/
theorem finalCandidateList_nodup_and_bounded (covis : CoVisMap) (fallback : List Aid)
    (events : List Event) (hev : events ≠ []) :
    (finalCandidateList covis fallback events).Nodup
    ∧ (finalCandidateList covis fallback events).length ≤ N_CANDIDATES_PER_SESSION := by
  constructor
  · exact (List.take_sublist _ _).nodup (nodup_dedupFirstAux _ _)
  · exact List.length_take_le _ _

/-- Witness for C6 at the concrete scenario with the 21-entry fallback. -/
theorem finalCandidateList_nodup_and_bounded_witness :
    (finalCandidateList covisEx fb21 eventsEx).Nodup
    ∧ (finalCandidateList covisEx fb21 eventsEx).length ≤ N_CANDIDATES_PER_SESSION :=
  finalCandidateList_nodup_and_bounded covisEx fb21 eventsEx (by decide)

/-- Claim C9: among equal scores the ranker places the larger item id
first: the ranked pair list is pairwise ordered so that equal scores
imply weakly descending aid, and concretely candidates 1 and 2 with
equal scores 5 rank as [2, 1]. -/
theorem equal_scores_rank_larger_aid_first (scores : List Int) (candidates : List Aid) :
    (rankedPairs scores candidates).Pairwise (fun p q => p.1 = q.1 → q.2 ≤ p.2)
    ∧ get_top_20_recs [5, 5] [1, 2] [] = [2, 1] := by
  constructor
  · refine List.Pairwise.imp ?_ (List.sorted_insertionSort pairDescLe _)
    intro p q h heq
    rcases h with h | ⟨_, h2⟩
    · exact absurd heq (ne_of_gt h)
    · exact h2
  · decide

/-- Claim C10: with a non-empty fallback list the final candidate pool is
non-empty, so the empty-pool short-circuit triggers exactly when both
the dynamic candidates and the fallback list are empty. -/
theorem pool_nonempty_of_fallback (covis : CoVisMap) (fallback : List Aid)
    (events : List Event) (hev : events ≠ []) :
    (fallback ≠ [] → finalCandidateList covis fallback events ≠ [])
    ∧ (finalCandidateList covis fallback events = []
        ↔ dynamicCandidates covis events = [] ∧ fallback = []) := by
  refine ⟨finalCandidateList_ne_nil covis fallback events, ?_⟩
  unfold finalCandidateList
  rw [List.take_eq_nil_iff]
  constructor
  · rintro (h | h)
    · exact absurd h (by simp [N_CANDIDATES_PER_SESSION])
    · exact List.append_eq_nil.mp ((dedupFirst_eq_nil_iff _).mp h)
  · rintro ⟨h1, h2⟩
    exact Or.inr ((dedupFirst_eq_nil_iff _).mpr (by rw [h1, h2]; rfl))

/-- Witness for C10 at the concrete scenario with the 21-entry
fallback. -/
theorem pool_nonempty_of_fallback_witness :
    (fb21 ≠ [] → finalCandidateList covisEx fb21 eventsEx ≠ [])
    ∧ (finalCandidateList covisEx fb21 eventsEx = []
        ↔ dynamicCandidates covisEx eventsEx = [] ∧ fb21 = []) :=
  pool_nonempty_of_fallback covisEx fb21 eventsEx (by decide)

/-- Claim C2 (amended): an empty session returns the entire fallback list
for all three event types, which equals the first 20 entries exactly
when the fallback holds at most 20 entries. -/
theorem empty_session_returns_full_fallback (covis : CoVisMap) (pop : AList)
    (fallback : List Aid)
    (mClicks mCarts mOrders : List (List Int) → Option (List Int)) :
    run_model_pipeline covis pop fallback mClicks mCarts mOrders []
      = some ⟨fallback, fallback, fallback⟩ := rfl

/-- Claim C2 counterexample: with a 21-entry fallback and an empty session
the clicks list is the whole 21-entry fallback, which differs from the
first 20 entries of the fallback. -/
theorem empty_session_cex :
    (run_model_pipeline [] [] fb21 okModel okModel okModel []).map (fun r => r.clicks)
      = some fb21
    ∧ fb21 ≠ fb21.take 20 :=
  ⟨rfl, by decide⟩

/-- Claim C7: the ranker sorts the (score, candidate) pairs in reverse
order (a permutation of the paired input with scores weakly descending)
and returns the top 20, extended when short with the fallback items not
already present, in fallback order, until 20 entries are reached or the
fallback is exhausted. -/
theorem get_top_20_recs_spec (scores : List Int) (candidates fallback : List Aid)
    (hnd : fallback.Nodup) :
    (rankedPairs scores candidates).Perm (scores.zip candidates)
    ∧ (rankedPairs scores candidates).Pairwise (fun p q => q.1 ≤ p.1)
    ∧ get_top_20_recs scores candidates fallback
        = rankedTop scores candidates
          ++ (fallback.filter
                (fun a => !((rankedTop scores candidates).contains a))).take
              (20 - (rankedTop scores candidates).length) := by
  refine ⟨List.perm_insertionSort pairDescLe _, ?_, ?_⟩
  · refine List.Pairwise.imp ?_ (List.sorted_insertionSort pairDescLe _)
    intro p q h
    rcases h with h | ⟨h1, _⟩
    · exact le_of_lt h
    · exact le_of_eq h1.symm
  · unfold get_top_20_recs
    split
    · next h =>
      rw [List.take_append_eq_append_take, List.take_of_length_le (le_of_lt h)]
    · next h =>
      have h1 : (rankedTop scores candidates).length = 20 := by
        have := List.length_take_le 20 ((rankedPairs scores candidates).map (fun p => p.2))
        unfold rankedTop at h ⊢
        omega
      rw [h1]
      simp

/-- Witness for C7 on concrete inputs with tied scores and the 21-entry
duplicate-free fallback. -/
theorem get_top_20_recs_spec_witness :
    (rankedPairs [5, 5] [1, 2]).Perm (List.zip [5, 5] [1, 2])
    ∧ (rankedPairs [5, 5] [1, 2]).Pairwise (fun p q => q.1 ≤ p.1)
    ∧ get_top_20_recs [5, 5] [1, 2] fb21
        = rankedTop [5, 5] [1, 2]
          ++ (fb21.filter
                (fun a => !((rankedTop [5, 5] [1, 2]).contains a))).take
              (20 - (rankedTop [5, 5] [1, 2]).length) :=
  get_top_20_recs_spec [5, 5] [1, 2] fb21 (by decide)

/-- Claim C3 (amended): for a non-empty session with a duplicate-free
fallback of at least 20 entries, every recommendation list the pipeline
produces has exactly 20 entries (and hence at most 20); for an empty
session the lists are the entire fallback, so their length is the
fallback's length, which exceeds 20 whenever the fallback does. -/
theorem rec_lists_length_twenty (covis : CoVisMap) (pop : AList) (fallback : List Aid)
    (mClicks mCarts mOrders : List (List Int) → Option (List Int))
    (events : List Event) (r : RecResults)
    (hnd : fallback.Nodup) (h20 : 20 ≤ fallback.length) (hev : events ≠ [])
    (hr : run_model_pipeline covis pop fallback mClicks mCarts mOrders events = some r) :
    r.clicks.length = 20 ∧ r.carts.length = 20 ∧ r.orders.length = 20 := by
  have hfb : fallback ≠ [] := by
    intro h
    rw [h] at h20
    simp at h20
  have hfinal := finalCandidateList_ne_nil covis fallback events hfb
  unfold run_model_pipeline at hr
  rw [if_neg (fun hh => hev (List.isEmpty_iff.mp hh)),
    if_neg (fun hh => hfinal (List.isEmpty_iff.mp hh))] at hr
  split at hr
  · next s1 s2 s3 h1 h2 h3 =>
    cases hr
    exact ⟨length_get_top_20_eq _ _ _ hnd h20, length_get_top_20_eq _ _ _ hnd h20,
      length_get_top_20_eq _ _ _ hnd h20⟩
  · next => cases hr

/-- Witness for C3 (amended): a one-event session with a 20-entry
duplicate-free fallback yields three lists of length 20. -/
theorem rec_lists_length_twenty_witness :
    (RecResults.mk (List.range 20) (List.range 20) (List.range 20)).clicks.length = 20
    ∧ (RecResults.mk (List.range 20) (List.range 20) (List.range 20)).carts.length = 20
    ∧ (RecResults.mk (List.range 20) (List.range 20) (List.range 20)).orders.length = 20 :=
  rec_lists_length_twenty [] [] (List.range 20) okModel okModel okModel [⟨1⟩]
    ⟨List.range 20, List.range 20, List.range 20⟩
    (by decide) (by decide) (by decide) (by decide)

/-- Claim C3 counterexample: for the empty session with a 21-entry
fallback, the produced clicks list has 21 entries, exceeding 20. -/
theorem rec_lists_length_cex :
    (run_model_pipeline [] [] fb21 okModel okModel okModel []).map (fun r => r.clicks.length)
      = some 21
    ∧ ¬ (21 : Nat) ≤ 20 :=
  ⟨rfl, by decide⟩

/-- Claim C8: an item absent from the co-occurrence index yields the empty
counter and weight 0, an item absent from the popularity table yields
popularity 0, and the pipeline completes normally (all lookups are
total) whenever the model calls succeed. -/
theorem missing_lookups_zero_and_pipeline_total (covis : CoVisMap) (pop : AList)
    (fallback : List Aid) (mClicks mCarts mOrders : List (List Int) → Option (List Int))
    (events : List Event) (h c : Aid)
    (hcov : h ∉ covis.map (fun p => p.1))
    (hpop : c ∉ pop.map (fun p => p.1))
    (hm : ∀ X, (mClicks X).isSome ∧ (mCarts X).isSome ∧ (mOrders X).isSome) :
    covisGet covis h = []
    ∧ counterGet (covisGet covis h) c = 0
    ∧ counterGet pop c = 0
    ∧ (run_model_pipeline covis pop fallback mClicks mCarts mOrders events).isSome := by
  have h1 : covisGet covis h = [] := by
    unfold covisGet
    have hnone : covis.find? (fun p => p.1 == h) = none := by
      rw [List.find?_eq_none]
      intro x hx hbeq
      exact hcov (List.mem_map.mpr ⟨x, hx, by simpa using hbeq⟩)
    rw [hnone]
  have h3 : counterGet pop c = 0 := by
    unfold counterGet
    have hnone : pop.find? (fun p => p.1 == c) = none := by
      rw [List.find?_eq_none]
      intro x hx hbeq
      exact hpop (List.mem_map.mpr ⟨x, hx, by simpa using hbeq⟩)
    rw [hnone]
  refine ⟨h1, by rw [h1]; rfl, h3, ?_⟩
  unfold run_model_pipeline
  split
  · rfl
  · split
    · rfl
    · obtain ⟨hc1, hc2, hc3⟩ := hm (featureMatrix covis pop fallback events)
      obtain ⟨s1, hs1⟩ := Option.isSome_iff_exists.mp hc1
      obtain ⟨s2, hs2⟩ := Option.isSome_iff_exists.mp hc2
      obtain ⟨s3, hs3⟩ := Option.isSome_iff_exists.mp hc3
      rw [hs1, hs2, hs3]
      rfl

/-- Witness for C8: item 99 is absent from the scenario's index and table,
its lookups give 0, and the pipeline run completes. -/
theorem missing_lookups_zero_and_pipeline_total_witness :
    covisGet covisEx 99 = []
    ∧ counterGet (covisGet covisEx 99) 99 = 0
    ∧ counterGet popEx 99 = 0
    ∧ (run_model_pipeline covisEx popEx fb21 okModel okModel okModel eventsEx).isSome :=
  missing_lookups_zero_and_pipeline_total covisEx popEx fb21 okModel okModel okModel
    eventsEx 99 99 (by decide) (by decide) (fun _ => ⟨rfl, rfl, rfl⟩)

/-- Claim C1 counterexample: with only the carts model failing on a
session with a non-empty candidate pool, the whole pipeline returns
none (the source returns the empty dict), so the clicks and orders
lists are not produced either and the failure is not isolated to the
failing event type.  The second conjunct shows the same input succeeds
when all three models succeed, so the scoring path is indeed reached. -/
theorem scoring_failure_cex :
    run_model_pipeline [] [] [7] (fun _ => some [1]) (fun _ => none) (fun _ => some [1])
      [⟨1⟩] = none
    ∧ run_model_pipeline [] [] [7] (fun _ => some [1]) (fun _ => some [1]) (fun _ => some [1])
      [⟨1⟩] ≠ none :=
  ⟨rfl, by decide⟩

/-- Claim C1 (amended): when any of the three model calls fails on the
scoring path, the failure is caught and the pipeline returns the empty
result, carrying no recommendation list for any of the three event
types. -/
theorem scoring_failure_empties_all (covis : CoVisMap) (pop : AList) (fallback : List Aid)
    (mClicks mCarts mOrders : List (List Int) → Option (List Int)) (events : List Event)
    (hev : events ≠ [])
    (hpool : finalCandidateList covis fallback events ≠ [])
    (hfail : mClicks (featureMatrix covis pop fallback events) = none
      ∨ mCarts (featureMatrix covis pop fallback events) = none
      ∨ mOrders (featureMatrix covis pop fallback events) = none) :
    run_model_pipeline covis pop fallback mClicks mCarts mOrders events = none := by
  unfold run_model_pipeline
  rw [if_neg (fun hh => hev (List.isEmpty_iff.mp hh)),
    if_neg (fun hh => hpool (List.isEmpty_iff.mp hh))]
  split
  · next s1 s2 s3 hq1 hq2 hq3 =>
    rcases hfail with hf | hf | hf
    · rw [hf] at hq1
      cases hq1
    · rw [hf] at hq2
      cases hq2
    · rw [hf] at hq3
      cases hq3
  · rfl

/-- Witness for C1 (amended) at the concrete failing-carts input. -/
theorem scoring_failure_empties_all_witness :
    run_model_pipeline [] [] [7] (fun _ => some [2]) (fun _ => none) (fun _ => some [2])
      [⟨1⟩] = none :=
  scoring_failure_empties_all [] [] [7] (fun _ => some [2]) (fun _ => none) (fun _ => some [2])
    [⟨1⟩] (by decide) (by decide) (Or.inr (Or.inl rfl))

end Otto
